import Mathlib

/-!
Shallow embedding of the auth and document core of src/Milestone1.py
(SQLite-backed Streamlit app): add_user, verify_user, create_reset_token,
reset_password, save_document, list_documents, delete_document, and the
email normalization email.strip().lower() they all share.
-/

namespace Milestone1

/-- Python whitespace test used by str.strip (ASCII whitespace characters). -/
def isSpace (c : Char) : Bool :=
  c = ' ' || c = '\t' || c = '\n' || c = '\r' || c = '\x0b' || c = '\x0c'

/-- One character of Python str.lower restricted to ASCII letters, which is
all that email case-normalization touches. -/
def lowerChar (c : Char) : Char :=
  if c = 'A' then 'a' else if c = 'B' then 'b' else if c = 'C' then 'c'
  else if c = 'D' then 'd' else if c = 'E' then 'e' else if c = 'F' then 'f'
  else if c = 'G' then 'g' else if c = 'H' then 'h' else if c = 'I' then 'i'
  else if c = 'J' then 'j' else if c = 'K' then 'k' else if c = 'L' then 'l'
  else if c = 'M' then 'm' else if c = 'N' then 'n' else if c = 'O' then 'o'
  else if c = 'P' then 'p' else if c = 'Q' then 'q' else if c = 'R' then 'r'
  else if c = 'S' then 's' else if c = 'T' then 't' else if c = 'U' then 'u'
  else if c = 'V' then 'v' else if c = 'W' then 'w' else if c = 'X' then 'x'
  else if c = 'Y' then 'y' else if c = 'Z' then 'z' else c

/-- Drop trailing elements satisfying p (the tail half of str.strip). -/
def stripEnd (p : α → Bool) (l : List α) : List α :=
  (l.reverse.dropWhile p).reverse

/-- Python str.strip on the character list: drop leading and trailing whitespace. -/
def pyStrip (l : List Char) : List Char :=
  stripEnd isSpace (l.dropWhile isSpace)

/-- The normalized email: Python email.strip().lower() from the source. -/
def norm (s : String) : String :=
  String.mk ((pyStrip s.data).map lowerChar)

theorem lowerChar_cases (c : Char) :
    lowerChar c = c ∨ c ∈ ['A', 'B', 'C', 'D', 'E', 'F', 'G', 'H', 'I', 'J',
      'K', 'L', 'M', 'N', 'O', 'P', 'Q', 'R', 'S', 'T', 'U', 'V', 'W', 'X',
      'Y', 'Z'] := by
  by_cases hA : c = 'A'
  · exact Or.inr (by rw [hA]; decide)
  by_cases hB : c = 'B'
  · exact Or.inr (by rw [hB]; decide)
  by_cases hC : c = 'C'
  · exact Or.inr (by rw [hC]; decide)
  by_cases hD : c = 'D'
  · exact Or.inr (by rw [hD]; decide)
  by_cases hE : c = 'E'
  · exact Or.inr (by rw [hE]; decide)
  by_cases hF : c = 'F'
  · exact Or.inr (by rw [hF]; decide)
  by_cases hG : c = 'G'
  · exact Or.inr (by rw [hG]; decide)
  by_cases hH : c = 'H'
  · exact Or.inr (by rw [hH]; decide)
  by_cases hI : c = 'I'
  · exact Or.inr (by rw [hI]; decide)
  by_cases hJ : c = 'J'
  · exact Or.inr (by rw [hJ]; decide)
  by_cases hK : c = 'K'
  · exact Or.inr (by rw [hK]; decide)
  by_cases hL : c = 'L'
  · exact Or.inr (by rw [hL]; decide)
  by_cases hM : c = 'M'
  · exact Or.inr (by rw [hM]; decide)
  by_cases hN : c = 'N'
  · exact Or.inr (by rw [hN]; decide)
  by_cases hO : c = 'O'
  · exact Or.inr (by rw [hO]; decide)
  by_cases hP : c = 'P'
  · exact Or.inr (by rw [hP]; decide)
  by_cases hQ : c = 'Q'
  · exact Or.inr (by rw [hQ]; decide)
  by_cases hR : c = 'R'
  · exact Or.inr (by rw [hR]; decide)
  by_cases hS : c = 'S'
  · exact Or.inr (by rw [hS]; decide)
  by_cases hT : c = 'T'
  · exact Or.inr (by rw [hT]; decide)
  by_cases hU : c = 'U'
  · exact Or.inr (by rw [hU]; decide)
  by_cases hV : c = 'V'
  · exact Or.inr (by rw [hV]; decide)
  by_cases hW : c = 'W'
  · exact Or.inr (by rw [hW]; decide)
  by_cases hX : c = 'X'
  · exact Or.inr (by rw [hX]; decide)
  by_cases hY : c = 'Y'
  · exact Or.inr (by rw [hY]; decide)
  by_cases hZ : c = 'Z'
  · exact Or.inr (by rw [hZ]; decide)
  left
  unfold lowerChar
  rw [if_neg hA, if_neg hB, if_neg hC, if_neg hD, if_neg hE, if_neg hF,
    if_neg hG, if_neg hH, if_neg hI, if_neg hJ, if_neg hK, if_neg hL,
    if_neg hM, if_neg hN, if_neg hO, if_neg hP, if_neg hQ, if_neg hR,
    if_neg hS, if_neg hT, if_neg hU, if_neg hV, if_neg hW, if_neg hX,
    if_neg hY, if_neg hZ]

theorem lowerChar_isSpace (c : Char) : isSpace (lowerChar c) = isSpace c := by
  rcases lowerChar_cases c with h | h
  · rw [h]
  · fin_cases h <;> rfl

theorem lowerChar_idem (c : Char) : lowerChar (lowerChar c) = lowerChar c := by
  rcases lowerChar_cases c with h | h
  · rw [h, h]
  · fin_cases h <;> rfl

theorem dropWhile_idem (p : α → Bool) (l : List α) :
    (l.dropWhile p).dropWhile p = l.dropWhile p := by
  induction l with
  | nil => rfl
  | cons a l ih => by_cases h : p a <;> simp [List.dropWhile_cons, h, ih]

/-- The head of the list, when present, does not satisfy p. -/
def frontClean (p : α → Bool) : List α → Prop
  | [] => True
  | a :: _ => p a = false

theorem frontClean_dropWhile (p : α → Bool) (l : List α) :
    frontClean p (l.dropWhile p) := by
  induction l with
  | nil => trivial
  | cons a l ih => by_cases h : p a <;> simp_all [List.dropWhile_cons, frontClean]

theorem dropWhile_of_frontClean (p : α → Bool) (l : List α) (h : frontClean p l) :
    l.dropWhile p = l := by
  cases l with
  | nil => rfl
  | cons a l => simp only [frontClean] at h; simp [List.dropWhile_cons, h]

theorem stripEnd_idem (p : α → Bool) (l : List α) :
    stripEnd p (stripEnd p l) = stripEnd p l := by
  simp [stripEnd, dropWhile_idem]

theorem stripEnd_cons (p : α → Bool) (a : α) (l : List α) :
    stripEnd p (a :: l) =
      if (stripEnd p l).isEmpty then (if p a then [] else [a])
      else a :: stripEnd p l := by
  have hiff : ((l.reverse.dropWhile p).reverse).isEmpty
      = (l.reverse.dropWhile p).isEmpty := by
    cases h : l.reverse.dropWhile p <;> simp [h]
  simp only [stripEnd, List.reverse_cons, List.dropWhile_append, hiff]
  by_cases h : (l.reverse.dropWhile p).isEmpty
  · rw [if_pos h, if_pos h]
    by_cases hp : p a <;> simp [List.dropWhile_cons, hp]
  · rw [if_neg h, if_neg h]
    simp

theorem frontClean_stripEnd (p : α → Bool) (l : List α) (h : frontClean p l) :
    frontClean p (stripEnd p l) := by
  induction l with
  | nil => trivial
  | cons a l ih =>
    rw [stripEnd_cons]
    by_cases he : (stripEnd p l).isEmpty
    · simp only [frontClean] at h
      simp [he, h, frontClean]
    · simpa [he, frontClean] using h

theorem pyStrip_idem (l : List Char) : pyStrip (pyStrip l) = pyStrip l := by
  have hfc : frontClean isSpace (pyStrip l) :=
    frontClean_stripEnd _ _ (frontClean_dropWhile _ _)
  show stripEnd isSpace ((pyStrip l).dropWhile isSpace) = pyStrip l
  rw [dropWhile_of_frontClean _ _ hfc]
  exact stripEnd_idem _ _

theorem isSpace_comp_lowerChar : (fun c => isSpace (lowerChar c)) = isSpace := by
  funext c
  exact lowerChar_isSpace c

theorem dropWhile_isSpace_map_lowerChar (l : List Char) :
    (l.map lowerChar).dropWhile isSpace = (l.dropWhile isSpace).map lowerChar := by
  rw [List.dropWhile_map]
  have : (isSpace ∘ lowerChar) = isSpace := by
    funext c
    exact lowerChar_isSpace c
  rw [this]

theorem stripEnd_isSpace_map_lowerChar (l : List Char) :
    stripEnd isSpace (l.map lowerChar) = (stripEnd isSpace l).map lowerChar := by
  simp [stripEnd, ← List.map_reverse, dropWhile_isSpace_map_lowerChar]

theorem pyStrip_map_lowerChar (l : List Char) :
    pyStrip (l.map lowerChar) = (pyStrip l).map lowerChar := by
  unfold pyStrip
  rw [dropWhile_isSpace_map_lowerChar, stripEnd_isSpace_map_lowerChar]

/-- Normalization is idempotent: stored emails are fixed points of norm. -/
theorem norm_idem (s : String) : norm (norm s) = norm s := by
  unfold norm
  simp only [String.data]
  rw [pyStrip_map_lowerChar, List.map_map]
  congr 1
  rw [pyStrip_idem]
  apply List.map_congr_left
  intro a _
  exact lowerChar_idem a

/-- A stored password_hash blob.  bcrypt.hashpw pairs a fresh salt with a
digest determined by the password; bcrypt.checkpw recovers the comparison.
A blob that is not a well-formed bcrypt hash makes checkpw raise, modelled
by the corrupt constructor. -/
inductive Blob where
  | bcrypt (salt : Nat) (password : String)
  | corrupt
deriving Repr, DecidableEq

/-- bcrypt.hashpw(password.encode(), bcrypt.gensalt()); the salt argument
stands for the fresh randomness of gensalt(). -/
def hashpw (password : String) (salt : Nat) : Blob :=
  Blob.bcrypt salt password

/-- bcrypt.checkpw(password.encode(), blob): matches exactly the password the
blob was derived from; raises (Except.error) on a malformed blob. -/
def checkpw (password : String) (blob : Blob) : Except String Bool :=
  match blob with
  | Blob.bcrypt _ stored => Except.ok (password == stored)
  | Blob.corrupt => Except.error "Invalid salt"

/-- A row of the users table. -/
structure User where
  id : Nat
  email : String
  password_hash : Blob
  reset_token : Option String
  created_at : Nat
deriving Repr, DecidableEq

/-- A row of the documents table. -/
structure Document where
  id : Nat
  user_id : Nat
  filename : Option String
  mime : Option String
  content : String
  created_at : Nat
deriving Repr, DecidableEq

/-- The SQLite database: the two tables, their AUTOINCREMENT counters, and a
monotone clock supplying datetime.utcnow() timestamps and gensalt() salts. -/
structure DB where
  users : List User
  documents : List Document
  nextUserId : Nat
  nextDocId : Nat
  clock : Nat
deriving Repr, DecidableEq

/-- init_db(): both tables start empty; AUTOINCREMENT ids start at 1. -/
def init_db : DB :=
  { users := [], documents := [], nextUserId := 1, nextDocId := 1, clock := 0 }

/-- add_user(email, password): validates the raw inputs, hashes the password,
and inserts the normalized email; the UNIQUE constraint on email surfaces as
sqlite3.IntegrityError, caught and reported as already registered. -/
def add_user (email password : String) (db : DB) : (Bool × String) × DB :=
  if email = "" ∨ password = "" then
    ((false, "Email and password are required."), db)
  else
    let pw_hash := hashpw password db.clock
    if db.users.any (fun u => u.email == norm email) then
      ((false, "Email already registered."), db)
    else
      ((true, "Registration successful."),
        { db with
          users := db.users ++
            [{ id := db.nextUserId, email := norm email,
               password_hash := pw_hash, reset_token := none,
               created_at := db.clock }],
          nextUserId := db.nextUserId + 1,
          clock := db.clock + 1 })

/-- verify_user(email, password): SELECT by normalized email; no row or a
failed/raising checkpw comparison both yield None. -/
def verify_user (email password : String) (db : DB) : Option (Nat × String) :=
  match db.users.find? (fun u => u.email == norm email) with
  | none => none
  | some row =>
    match checkpw password row.password_hash with
    | Except.ok true => some (row.id, row.email)
    | Except.ok false => none
    | Except.error _ => none

/-- create_reset_token(email): UPDATE users SET reset_token=token WHERE
email=normalized; returns None when rowcount is 0 (no matching email).  The
token argument stands for secrets.token_hex(16). -/
def create_reset_token (token email : String) (db : DB) : Option String × DB :=
  let db' := { db with
    users := db.users.map (fun u =>
      if u.email == norm email then { u with reset_token := some token } else u) }
  if db.users.any (fun u => u.email == norm email) then (some token, db')
  else (none, db')

/-- reset_password(email, token, new_password): SELECT the stored token by
normalized email; on mismatch or missing row fail; on match one UPDATE both
stores the re-hashed password and sets reset_token to NULL. -/
def reset_password (email token new_password : String) (db : DB) :
    (Bool × String) × DB :=
  match db.users.find? (fun u => u.email == norm email) with
  | none => ((false, "Invalid or expired reset token."), db)
  | some row =>
    if row.reset_token == some token then
      ((true, "Password has been reset successfully."),
        { db with
          users := db.users.map (fun u =>
            if u.email == norm email then
              { u with password_hash := hashpw new_password db.clock,
                       reset_token := none }
            else u),
          clock := db.clock + 1 })
    else
      ((false, "Invalid or expired reset token."), db)

/-- save_document(user_id, content, filename, mime): unconditional INSERT with
a fresh id and the current timestamp; the function returns nothing. -/
def save_document (user_id : Nat) (content : String)
    (filename mime : Option String) (db : DB) : DB :=
  { db with
    documents := db.documents ++
      [{ id := db.nextDocId, user_id := user_id, filename := filename,
         mime := mime, content := content, created_at := db.clock }],
    nextDocId := db.nextDocId + 1,
    clock := db.clock + 1 }

/-- list_documents(user_id): SELECT ... WHERE user_id=? ORDER BY id DESC. -/
def list_documents (db : DB) (user_id : Nat) : List Document :=
  (db.documents.filter (fun d => d.user_id == user_id)).mergeSort
    (fun a b => decide (b.id ≤ a.id))

/-- delete_document(doc_id, user_id): DELETE ... WHERE id=? AND user_id=?. -/
def delete_document (doc_id user_id : Nat) (db : DB) : DB :=
  { db with
    documents := db.documents.filter
      (fun d => !(d.id == doc_id && d.user_id == user_id)) }

/-- Python s.strip() on a whole string. -/
def pyStripStr (s : String) : String :=
  String.mk (pyStrip s.data)

/-- The Save Document button handler of the upload tab: strips the pasted
text, falls back to the stripped extracted text, refuses to save blank
content, and otherwise calls save_document with the defaulted filename and
mime. -/
def save_flow (user_id : Nat) (paste_text extracted_text : String)
    (filename mime : Option String) (db : DB) : (Bool × String) × DB :=
  let final1 := pyStripStr paste_text
  let final2 :=
    if final1 = "" ∧ extracted_text ≠ "" then pyStripStr extracted_text
    else final1
  if final2 = "" then
    ((false, "No content to save. Paste text or upload a file first."), db)
  else
    ((true, "Document saved to your library."),
      save_document user_id final2 (some (filename.getD "pasted_text.txt"))
        (some (mime.getD "text/plain")) db)

/-- One invocation of a core operation, as the UI can issue it. -/
inductive Step : DB → DB → Prop where
  | register (email password : String) (db : DB) :
      Step db (add_user email password db).2
  | issue (token email : String) (db : DB) :
      Step db (create_reset_token token email db).2
  | redeem (email token new_password : String) (db : DB) :
      Step db (reset_password email token new_password db).2
  | save (user_id : Nat) (content : String) (filename mime : Option String)
      (db : DB) : Step db (save_document user_id content filename mime db)
  | delete (doc_id user_id : Nat) (db : DB) :
      Step db (delete_document doc_id user_id db)

/-- Database states reachable from init_db through core operations. -/
inductive Reachable : DB → Prop where
  | init : Reachable init_db
  | step {db db' : DB} : Reachable db → Step db db' → Reachable db'

/-- From a pairwise relation, any two members are equal or related one way. -/
theorem pairwise_elim {α : Type _} {R : α → α → Prop} {l : List α}
    (h : l.Pairwise R) {a b : α} (ha : a ∈ l) (hb : b ∈ l) :
    a = b ∨ R a b ∨ R b a := by
  induction l with
  | nil => cases ha
  | cons x xs ih =>
    rcases List.pairwise_cons.mp h with ⟨hx, hxs⟩
    rcases List.mem_cons.mp ha with ha1 | ha2
    · rcases List.mem_cons.mp hb with hb1 | hb2
      · exact Or.inl (ha1.trans hb1.symm)
      · exact Or.inr (Or.inl (by rw [ha1]; exact hx b hb2))
    · rcases List.mem_cons.mp hb with hb1 | hb2
      · exact Or.inr (Or.inr (by rw [hb1]; exact hx a ha2))
      · exact ih hxs ha2 hb2

/-- The users-table invariant: stored emails are already normalized and are
pairwise distinct (the UNIQUE constraint). -/
def UsersInv (db : DB) : Prop :=
  (∀ u ∈ db.users, norm u.email = u.email) ∧
  db.users.Pairwise (fun a b => a.email ≠ b.email)

/-- The documents-table invariant: rows are stored in strictly increasing id
and creation order, below the AUTOINCREMENT counter and the clock. -/
def DocsInv (db : DB) : Prop :=
  db.documents.Pairwise (fun a b => a.id < b.id ∧ a.created_at < b.created_at) ∧
  (∀ d ∈ db.documents, d.id < db.nextDocId ∧ d.created_at < db.clock)

/-- Full state invariant. -/
def Inv (db : DB) : Prop := UsersInv db ∧ DocsInv db

theorem find?_map_email_preserving (l : List User) (f : User → User)
    (hf : ∀ u, (f u).email = u.email) (e : String) :
    (l.map f).find? (fun u => u.email == e)
      = (l.find? (fun u => u.email == e)).map f := by
  have hfun : ((fun u => u.email == e) ∘ f) = (fun u => u.email == e) := by
    funext u
    simp [Function.comp, hf u]
  rw [List.find?_map, hfun]

theorem usersInv_map (db : DB) (f : User → User)
    (hf : ∀ u, (f u).email = u.email) (h : UsersInv db)
    (docs : List Document) (n m c : Nat) :
    UsersInv { users := db.users.map f, documents := docs,
               nextUserId := n, nextDocId := m, clock := c } := by
  obtain ⟨hfix, hpw⟩ := h
  constructor
  · intro u hu
    rcases List.mem_map.mp hu with ⟨v, hv, rfl⟩
    rw [hf v]
    exact hfix v hv
  · rw [List.pairwise_map]
    refine hpw.imp_of_mem ?_
    intro a b _ _ hne
    rw [hf a, hf b]
    exact hne

theorem inv_init : Inv init_db := by
  constructor <;> constructor <;> simp [init_db, UsersInv, DocsInv]

theorem inv_add_user (db : DB) (email password : String) (h : Inv db) :
    Inv (add_user email password db).2 := by
  obtain ⟨⟨hfix, hpw⟩, hdoc, hbound⟩ := h
  unfold add_user
  by_cases h0 : email = "" ∨ password = ""
  · simp only [if_pos h0]
    exact ⟨⟨hfix, hpw⟩, hdoc, hbound⟩
  by_cases h1 : db.users.any (fun u => u.email == norm email)
  · simp only [if_neg h0, h1, if_pos, if_true]
    exact ⟨⟨hfix, hpw⟩, hdoc, hbound⟩
  · simp only [if_neg h0, h1, if_false, Bool.false_eq_true]
    have hnot : ∀ u ∈ db.users, u.email ≠ norm email := by
      intro u hu heq
      exact h1 (List.any_eq_true.mpr ⟨u, hu, by simp [heq]⟩)
    refine ⟨⟨?_, ?_⟩, ?_, ?_⟩
    · intro u hu
      rcases List.mem_append.mp hu with hu | hu
      · exact hfix u hu
      · simp only [List.mem_singleton] at hu
        subst hu
        exact norm_idem email
    · refine List.pairwise_append.mpr ⟨hpw, List.pairwise_singleton _ _, ?_⟩
      intro a ha b hb
      simp only [List.mem_singleton] at hb
      subst hb
      exact hnot a ha
    · exact hdoc
    · intro d hd
      have := hbound d hd
      show d.id < db.nextDocId ∧ d.created_at < db.clock + 1
      omega

theorem inv_create_reset_token (db : DB) (token email : String) (h : Inv db) :
    Inv (create_reset_token token email db).2 := by
  obtain ⟨hu, hd⟩ := h
  unfold create_reset_token
  by_cases h1 : db.users.any (fun u => u.email == norm email) <;>
    simp only [h1, if_pos, if_neg, if_true, if_false] <;>
    exact ⟨usersInv_map db _ (by intro u; split <;> rfl) hu _ _ _ _, hd⟩

theorem inv_reset_password (db : DB) (email token newpw : String) (h : Inv db) :
    Inv (reset_password email token newpw db).2 := by
  obtain ⟨hu, hdoc, hbound⟩ := h
  unfold reset_password
  cases hf : db.users.find? (fun u => u.email == norm email) with
  | none => exact ⟨hu, hdoc, hbound⟩
  | some row =>
    by_cases ht : row.reset_token == some token
    · simp only [ht, if_pos, if_true]
      refine ⟨usersInv_map db _ (by intro u; split <;> rfl) hu _ _ _ _, hdoc, ?_⟩
      intro d hd
      have := hbound d hd
      show d.id < db.nextDocId ∧ d.created_at < db.clock + 1
      omega
    · simp only [ht, if_neg, if_false]
      exact ⟨hu, hdoc, hbound⟩

theorem inv_save_document (db : DB) (uid : Nat) (content : String)
    (filename mime : Option String) (h : Inv db) :
    Inv (save_document uid content filename mime db) := by
  obtain ⟨hu, hdoc, hbound⟩ := h
  unfold save_document
  refine ⟨hu, ?_, ?_⟩
  · refine List.pairwise_append.mpr ⟨hdoc, List.pairwise_singleton _ _, ?_⟩
    intro a ha b hb
    simp only [List.mem_singleton] at hb
    subst hb
    exact hbound a ha
  · intro d hd
    rcases List.mem_append.mp hd with hd | hd
    · have := hbound d hd
      show d.id < db.nextDocId + 1 ∧ d.created_at < db.clock + 1
      omega
    · simp only [List.mem_singleton] at hd
      subst hd
      show db.nextDocId < db.nextDocId + 1 ∧ db.clock < db.clock + 1
      omega

theorem inv_delete_document (db : DB) (doc_id uid : Nat) (h : Inv db) :
    Inv (delete_document doc_id uid db) := by
  obtain ⟨hu, hdoc, hbound⟩ := h
  unfold delete_document
  refine ⟨hu, hdoc.sublist (List.filter_sublist _), ?_⟩
  intro d hd
  exact hbound d (List.mem_of_mem_filter hd)

/-- Every reachable database state satisfies the invariant. -/
theorem inv_reachable (db : DB) (h : Reachable db) : Inv db := by
  induction h with
  | init => exact inv_init
  | step _ s ih =>
    cases s with
    | register email password db => exact inv_add_user _ _ _ ih
    | issue token email db => exact inv_create_reset_token _ _ _ ih
    | redeem email token newpw db => exact inv_reset_password _ _ _ _ ih
    | save uid content filename mime db => exact inv_save_document _ _ _ _ _ ih
    | delete doc_id uid db => exact inv_delete_document _ _ _ ih

theorem add_user_success (db : DB) (email password : String)
    (he : email ≠ "") (hp : password ≠ "")
    (hfree : ∀ u ∈ db.users, u.email ≠ norm email) :
    add_user email password db =
      ((true, "Registration successful."),
        { db with
          users := db.users ++
            [{ id := db.nextUserId, email := norm email,
               password_hash := hashpw password db.clock, reset_token := none,
               created_at := db.clock }],
          nextUserId := db.nextUserId + 1, clock := db.clock + 1 }) := by
  have hany : db.users.any (fun u => u.email == norm email) = false :=
    List.any_eq_false.mpr (fun u hu => by simp [hfree u hu])
  unfold add_user
  rw [if_neg (by simp [he, hp])]
  simp [hany]

theorem reset_password_success (db : DB) (email token newpw : String)
    (row : User)
    (hfind : db.users.find? (fun u => u.email == norm email) = some row)
    (htok : row.reset_token = some token) :
    reset_password email token newpw db =
      ((true, "Password has been reset successfully."),
        { db with
          users := db.users.map (fun u =>
            if u.email == norm email then
              { u with password_hash := hashpw newpw db.clock,
                       reset_token := none }
            else u),
          clock := db.clock + 1 }) := by
  unfold reset_password
  rw [hfind]
  simp [htok]

theorem reset_password_fail (db : DB) (email token newpw : String) (row : User)
    (hfind : db.users.find? (fun u => u.email == norm email) = some row)
    (hne : row.reset_token ≠ some token) :
    reset_password email token newpw db
      = ((false, "Invalid or expired reset token."), db) := by
  unfold reset_password
  rw [hfind]
  simp [hne]

theorem find?_update (db : DB) (e : String) (row : User) (f : User → User)
    (hf : ∀ u, (f u).email = u.email)
    (hfind : db.users.find? (fun u => u.email == e) = some row) :
    (db.users.map f).find? (fun u => u.email == e) = some (f row) := by
  rw [find?_map_email_preserving db.users f hf e, hfind]
  rfl

/-- C1.  Redeem is atomic and single-use: with a matching pending token, one
redemption stores the hash of new_password and clears the token together; a
second redemption with the same token fails with the InvalidToken message,
and afterwards verify accepts the new password and rejects the old one. -/
theorem claim_C1 (db : DB) (email token newpw oldpw : String) (row : User)
    (hfind : db.users.find? (fun u => u.email == norm email) = some row)
    (htok : row.reset_token = some token)
    (hne : oldpw ≠ newpw) :
    (reset_password email token newpw db).1
      = (true, "Password has been reset successfully.")
    ∧ (reset_password email token newpw db).2.users.find?
        (fun u => u.email == norm email)
        = some { row with password_hash := hashpw newpw db.clock,
                          reset_token := none }
    ∧ (reset_password email token newpw
        (reset_password email token newpw db).2).1
        = (false, "Invalid or expired reset token.")
    ∧ verify_user email newpw (reset_password email token newpw db).2
        = some (row.id, row.email)
    ∧ verify_user email oldpw (reset_password email token newpw db).2
        = none := by
  have hrow : (row.email == norm email) = true := by
    simpa using List.find?_some hfind
  have hred := reset_password_success db email token newpw row hfind htok
  have hf : ∀ u : User,
      ((if u.email == norm email then
          { u with password_hash := hashpw newpw db.clock, reset_token := none }
        else u) : User).email = u.email := by
    intro u
    split <;> rfl
  have hfind2 : (reset_password email token newpw db).2.users.find?
      (fun u => u.email == norm email)
      = some { row with password_hash := hashpw newpw db.clock,
                        reset_token := none } := by
    rw [hred]
    dsimp only
    rw [find?_update db (norm email) row _ hf hfind]
    simp [hrow]
  have hbeq : (oldpw == newpw) = false := beq_eq_false_iff_ne.mpr hne
  refine ⟨by rw [hred], hfind2, ?_, ?_, ?_⟩
  · rw [reset_password_fail _ _ _ _ _ hfind2 (by simp)]
  · unfold verify_user
    rw [hfind2]
    simp [checkpw, hashpw]
  · unfold verify_user
    rw [hfind2]
    simp [checkpw, hashpw, hbeq]

/-- C2.  Register/verify round-trip: inputs accepted by add_user (non-empty,
normalized email unused) register successfully, and verify_user with the
same raw email and password returns the id the insert assigned. -/
theorem claim_C2 (db : DB) (email password : String)
    (he : email ≠ "") (hp : password ≠ "")
    (hfree : ∀ u ∈ db.users, u.email ≠ norm email) :
    (add_user email password db).1 = (true, "Registration successful.")
    ∧ verify_user email password (add_user email password db).2
        = some (db.nextUserId, norm email) := by
  have hred := add_user_success db email password he hp hfree
  refine ⟨by rw [hred], ?_⟩
  rw [hred]
  unfold verify_user
  dsimp only
  rw [List.find?_append]
  have hnone : db.users.find? (fun u => u.email == norm email) = none :=
    List.find?_eq_none.mpr (fun u hu => by simp [hfree u hu])
  rw [hnone]
  simp [checkpw, hashpw]

/-- C6.  Verify fails closed and indistinguishably: an unregistered email, a
non-matching password, and a checkpw exception all produce the same None. -/
theorem claim_C6 (db : DB) (email password : String) :
    (db.users.find? (fun u => u.email == norm email) = none →
      verify_user email password db = none)
    ∧ (∀ row, db.users.find? (fun u => u.email == norm email) = some row →
        checkpw password row.password_hash = Except.ok false →
        verify_user email password db = none)
    ∧ (∀ row e, db.users.find? (fun u => u.email == norm email) = some row →
        checkpw password row.password_hash = Except.error e →
        verify_user email password db = none) := by
  refine ⟨?_, ?_, ?_⟩
  · intro h
    unfold verify_user
    rw [h]
  · intro row h hc
    unfold verify_user
    rw [h]
    simp [hc]
  · intro row e h hc
    unfold verify_user
    rw [h]
    simp [hc]

/-- C10.  Implicit: reset_password performs no validation of new_password:
an empty new password is accepted and its hash stored, although add_user
rejects an empty password. -/
theorem claim_C10 (db : DB) (email token : String) (row : User)
    (hfind : db.users.find? (fun u => u.email == norm email) = some row)
    (htok : row.reset_token = some token) :
    (reset_password email token "" db).1
      = (true, "Password has been reset successfully.")
    ∧ (reset_password email token "" db).2.users.find?
        (fun u => u.email == norm email)
        = some { row with password_hash := hashpw "" db.clock,
                          reset_token := none }
    ∧ (∀ e, ∀ db2 : DB, add_user e "" db2
        = ((false, "Email and password are required."), db2)) := by
  have hrow : (row.email == norm email) = true := by
    simpa using List.find?_some hfind
  have hred := reset_password_success db email token "" row hfind htok
  have hf : ∀ u : User,
      ((if u.email == norm email then
          { u with password_hash := hashpw "" db.clock, reset_token := none }
        else u) : User).email = u.email := by
    intro u
    split <;> rfl
  refine ⟨by rw [hred], ?_, ?_⟩
  · rw [hred]
    dsimp only
    rw [find?_update db (norm email) row _ hf hfind]
    simp [hrow]
  · intro e db2
    unfold add_user
    rw [if_pos (Or.inr rfl)]

theorem create_reset_token_found (db : DB) (token email : String)
    (hany : db.users.any (fun u => u.email == norm email) = true) :
    create_reset_token token email db =
      (some token, { db with users := db.users.map (fun u =>
        if u.email == norm email then { u with reset_token := some token }
        else u) }) := by
  simp [create_reset_token, hany]

theorem create_reset_token_notfound (db : DB) (token email : String)
    (hfree : ∀ u ∈ db.users, u.email ≠ norm email) :
    create_reset_token token email db = (none, db) := by
  have hany : db.users.any (fun u => u.email == norm email) = false :=
    List.any_eq_false.mpr (fun u hu => by simp [hfree u hu])
  have hmap : db.users.map (fun u =>
      if u.email == norm email then { u with reset_token := some token }
      else u) = db.users := by
    have h1 : db.users.map (fun u =>
        if u.email == norm email then { u with reset_token := some token }
        else u) = db.users.map id :=
      List.map_congr_left (fun u hu => by simp [hfree u hu])
    rw [h1, List.map_id]
  simp only [create_reset_token]
  rw [if_neg (by simp [hany])]
  rw [hmap]

/-- C7.  Token issuance: unregistered emails get none and an unchanged
state; registered emails get the token stored against them, overwriting any
prior token, so that after a second issue the first token no longer
redeems. -/
theorem claim_C7 (db : DB) (t1 t2 email newpw : String) :
    ((∀ u ∈ db.users, u.email ≠ norm email) →
      create_reset_token t1 email db = (none, db))
    ∧ (∀ row, db.users.find? (fun u => u.email == norm email) = some row →
        (create_reset_token t1 email db).1 = some t1
        ∧ (create_reset_token t1 email db).2.users.find?
            (fun u => u.email == norm email)
            = some { row with reset_token := some t1 }
        ∧ (t1 ≠ t2 →
            (reset_password email t1 newpw
              (create_reset_token t2 email
                (create_reset_token t1 email db).2).2).1
              = (false, "Invalid or expired reset token."))) := by
  constructor
  · exact create_reset_token_notfound db t1 email
  · intro row hfind
    have hrow : (row.email == norm email) = true := by
      simpa using List.find?_some hfind
    have hany : db.users.any (fun u => u.email == norm email) = true :=
      List.any_eq_true.mpr ⟨row, List.mem_of_find?_eq_some hfind, hrow⟩
    have hf1 : ∀ u : User,
        ((if u.email == norm email then { u with reset_token := some t1 }
          else u) : User).email = u.email := by
      intro u
      split <;> rfl
    have h1 := create_reset_token_found db t1 email hany
    have hfind1 : (create_reset_token t1 email db).2.users.find?
        (fun u => u.email == norm email)
        = some { row with reset_token := some t1 } := by
      rw [h1]
      dsimp only
      rw [find?_update db (norm email) row _ hf1 hfind]
      simp [hrow]
    refine ⟨by rw [h1], hfind1, ?_⟩
    intro hne
    have hany2 : (create_reset_token t1 email db).2.users.any
        (fun u => u.email == norm email) = true :=
      List.any_eq_true.mpr ⟨_, List.mem_of_find?_eq_some hfind1,
        by simpa using List.find?_some hfind1⟩
    have hf2 : ∀ u : User,
        ((if u.email == norm email then { u with reset_token := some t2 }
          else u) : User).email = u.email := by
      intro u
      split <;> rfl
    have h2 := create_reset_token_found (create_reset_token t1 email db).2
      t2 email hany2
    have hfind2 : (create_reset_token t2 email
        (create_reset_token t1 email db).2).2.users.find?
        (fun u => u.email == norm email)
        = some { row with reset_token := some t2 } := by
      rw [h2]
      dsimp only
      rw [find?_update _ (norm email) _ _ hf2 hfind1]
      simp [hrow]
    rw [reset_password_fail _ _ _ _ _ hfind2
      (fun hcon => hne (Option.some.inj hcon).symm)]

/-- Strings made of whitespace only normalize to the empty string. -/
theorem norm_of_all_space (s : String) (h : ∀ c ∈ s.data, isSpace c = true) :
    norm s = "" := by
  unfold norm pyStrip
  have h1 : s.data.dropWhile isSpace = [] := List.dropWhile_eq_nil_iff.mpr h
  rw [h1]
  rfl

/-- C5 counterexample: a whitespace-only email passes add_user's validation
(which inspects the raw strings before normalizing) and registers a user,
instead of failing with InvalidInput as the claim states. -/
theorem claim_C5_counterexample :
    (add_user " " "pw" init_db).1 = (true, "Registration successful.")
    ∧ (add_user " " "pw" init_db).2.users ≠ [] := by
  constructor
  · rfl
  · decide

/-- C5 amended: add_user rejects emptiness of the raw email and password
before normalization; a whitespace-only email passes the check and, when the
empty normalized email is still free, creates a user stored under the empty
string. -/
theorem claim_C5 (email password : String) (db : DB) :
    ((email = "" ∨ password = "") →
      add_user email password db
        = ((false, "Email and password are required."), db))
    ∧ (email ≠ "" → password ≠ "" → (∀ c ∈ email.data, isSpace c = true) →
        (∀ u ∈ db.users, u.email ≠ "") →
        add_user email password db
          = ((true, "Registration successful."),
            { db with
              users := db.users ++
                [{ id := db.nextUserId, email := "",
                   password_hash := hashpw password db.clock,
                   reset_token := none, created_at := db.clock }],
              nextUserId := db.nextUserId + 1, clock := db.clock + 1 })) := by
  constructor
  · intro h
    unfold add_user
    rw [if_pos h]
  · intro he hp hsp hfree
    have hn : norm email = "" := norm_of_all_space email hsp
    have hfree2 : ∀ u ∈ db.users, u.email ≠ norm email := by
      intro u hu
      rw [hn]
      exact hfree u hu
    rw [add_user_success db email password he hp hfree2, hn]

/-- C4 counterexample: save_document persists a document even when the
content is empty — the claimed EmptyContent rejection does not happen inside
save_document. -/
theorem claim_C4_counterexample :
    (save_document 1 "" none none init_db).documents
      = [{ id := 1, user_id := 1, filename := none, mime := none,
           content := "", created_at := 0 }] := rfl

/-- C4 amended: save_document itself validates nothing and returns no
identifier: it persists one new row with the given content (empty included)
and a creation timestamp; the empty-content rejection lives in the caller,
the upload tab's save handler, which refuses to persist blank text. -/
theorem claim_C4 (uid : Nat) (content : String) (filename mime : Option String)
    (db : DB) (paste extracted : String) :
    (save_document uid content filename mime db).documents
      = db.documents ++
        [{ id := db.nextDocId, user_id := uid, filename := filename,
           mime := mime, content := content, created_at := db.clock }]
    ∧ (pyStripStr paste = "" → pyStripStr extracted = "" →
        save_flow uid paste extracted filename mime db
          = ((false, "No content to save. Paste text or upload a file first."),
             db)) := by
  refine ⟨rfl, ?_⟩
  intro h1 h2
  unfold save_flow
  by_cases hx : extracted = "" <;> simp [h1, h2, hx]

/-- C9.  Delete is owner-scoped with a silent no-op: exactly the rows
matching both the id and the owner disappear, a call that matches nothing
returns the state unchanged, and a deleted document never shows up in a
subsequent list. -/
theorem claim_C9 (db : DB) (doc_id uid : Nat) :
    (∀ d, d ∈ (delete_document doc_id uid db).documents ↔
      (d ∈ db.documents ∧ ¬(d.id = doc_id ∧ d.user_id = uid)))
    ∧ ((∀ d ∈ db.documents, ¬(d.id = doc_id ∧ d.user_id = uid)) →
        delete_document doc_id uid db = db)
    ∧ (∀ d, d.id = doc_id → d.user_id = uid →
        d ∉ list_documents (delete_document doc_id uid db) uid) := by
  refine ⟨?_, ?_, ?_⟩
  · intro d
    simp [delete_document, List.mem_filter, not_and]
    tauto
  · intro h
    unfold delete_document
    have heq : db.documents.filter
        (fun d => !(d.id == doc_id && d.user_id == uid)) = db.documents := by
      apply List.filter_eq_self.mpr
      intro d hd
      have hx := h d hd
      simp at hx ⊢
      tauto
    rw [heq]
  · intro d h1 h2 hmem
    have hd : d ∈ (delete_document doc_id uid db).documents :=
      (List.mem_filter.mp ((List.mem_mergeSort).mp hmem)).1
    have hp := List.of_mem_filter hd
    simp [h1, h2] at hp

/-- C3.  Email uniqueness: reachable states hold at most one user per
normalized email, and registering an email whose normalization is already
taken fails with the DuplicateEmail message and leaves the state unchanged. -/
theorem claim_C3 (db : DB) (h : Reachable db) :
    (∀ u1 ∈ db.users, ∀ u2 ∈ db.users,
      norm u1.email = norm u2.email → u1 = u2)
    ∧ (∀ email password : String, email ≠ "" → password ≠ "" →
        (∃ u ∈ db.users, norm u.email = norm email) →
        add_user email password db
          = ((false, "Email already registered."), db)) := by
  obtain ⟨⟨hfix, hpw⟩, _⟩ := inv_reachable db h
  constructor
  · intro u1 h1 u2 h2 he
    have e1 : u1.email = u2.email := by
      rw [← hfix u1 h1, ← hfix u2 h2, he]
    rcases pairwise_elim hpw h1 h2 with h | h | h
    · exact h
    · exact absurd e1 h
    · exact absurd e1.symm h
  · intro email password he hp hex
    obtain ⟨u, hu, hnorm⟩ := hex
    have hmail : u.email = norm email := by
      rw [← hfix u hu, hnorm]
    have hany : db.users.any (fun v => v.email == norm email) = true :=
      List.any_eq_true.mpr ⟨u, hu, by simp [hmail]⟩
    unfold add_user
    rw [if_neg (by simp [he, hp])]
    simp [hany]

/-- C8.  List is owner-scoped and ordered: exactly the caller's documents
come back, sorted most recently created (equivalently, highest id) first. -/
theorem claim_C8 (db : DB) (h : Reachable db) (uid : Nat) :
    (∀ d, d ∈ list_documents db uid ↔ (d ∈ db.documents ∧ d.user_id = uid))
    ∧ (list_documents db uid).Pairwise
        (fun a b => b.id < a.id ∧ b.created_at < a.created_at) := by
  obtain ⟨_, hdoc, _⟩ := inv_reachable db h
  have hmem : ∀ d : Document,
      d ∈ list_documents db uid ↔ (d ∈ db.documents ∧ d.user_id = uid) := by
    intro d
    unfold list_documents
    rw [List.mem_mergeSort, List.mem_filter]
    simp
  refine ⟨hmem, ?_⟩
  have htrans : ∀ a b c : Document, decide (b.id ≤ a.id) = true →
      decide (c.id ≤ b.id) = true → decide (c.id ≤ a.id) = true := by
    intro a b c h1 h2
    have g1 := of_decide_eq_true h1
    have g2 := of_decide_eq_true h2
    exact decide_eq_true (Nat.le_trans g2 g1)
  have htotal : ∀ a b : Document,
      (decide (b.id ≤ a.id) || decide (a.id ≤ b.id)) = true := by
    intro a b
    rcases Nat.le_total b.id a.id with h | h <;> simp [h]
  have hsorted := List.sorted_mergeSort htrans htotal
    (db.documents.filter (fun d => d.user_id == uid))
  have hfilterne : (db.documents.filter
      (fun d => d.user_id == uid)).Pairwise (fun a b => a.id ≠ b.id) :=
    (hdoc.sublist (List.filter_sublist _)).imp (fun h => Nat.ne_of_lt h.1)
  have hne : (list_documents db uid).Pairwise (fun a b => a.id ≠ b.id) :=
    ((List.mergeSort_perm _ _).pairwise_iff (fun h => Ne.symm h)).mpr hfilterne
  have hand := hsorted.and hne
  refine hand.imp_of_mem ?_
  intro a b ha hb hab
  have hal : a ∈ db.documents := ((hmem a).mp ha).1
  have hbl : b ∈ db.documents := ((hmem b).mp hb).1
  have hle : b.id ≤ a.id := of_decide_eq_true hab.1
  have hlt : b.id < a.id := Nat.lt_of_le_of_ne hle (fun g => hab.2 g.symm)
  rcases pairwise_elim hdoc hal hbl with heq | hR | hR
  · rw [heq] at hlt
    exact absurd hlt (Nat.lt_irrefl _)
  · exact absurd hlt (Nat.not_lt.mpr (Nat.le_of_lt hR.1))
  · exact ⟨hlt, hR.2⟩

/-- State after registering a@x.com with password pw1. -/
def dbA : DB := (add_user "a@x.com" "pw1" init_db).2

/-- The row that registration inserts. -/
def rowA : User :=
  { id := 1, email := "a@x.com", password_hash := hashpw "pw1" 0,
    reset_token := none, created_at := 0 }

/-- State after additionally issuing reset token t1 for a@x.com. -/
def dbT : DB := (create_reset_token "t1" "a@x.com" dbA).2

/-- The row with the pending token. -/
def rowT : User := { rowA with reset_token := some "t1" }

/-- A state holding a malformed password hash, on which checkpw raises. -/
def dbC : DB :=
  { users := [{ id := 1, email := "c@x.com", password_hash := Blob.corrupt,
                reset_token := none, created_at := 0 }],
    documents := [], nextUserId := 2, nextDocId := 1, clock := 1 }

/-- State with two saved documents for owner 1. -/
def dbS : DB :=
  save_document 1 "b" none none (save_document 1 "a" none none init_db)

/-- The first document saved in dbS. -/
def docA : Document :=
  { id := 1, user_id := 1, filename := none, mime := none, content := "a",
    created_at := 0 }

theorem claim_C1_witness :
    dbT.users.find? (fun u => u.email == norm "a@x.com") = some rowT
    ∧ (reset_password "a@x.com" "t1" "pw2" dbT).1
        = (true, "Password has been reset successfully.")
    ∧ verify_user "a@x.com" "pw2" (reset_password "a@x.com" "t1" "pw2" dbT).2
        = some (rowT.id, rowT.email) :=
  ⟨by decide,
   (claim_C1 dbT "a@x.com" "t1" "pw2" "pw1" rowT (by decide) (by decide)
     (by decide)).1,
   (claim_C1 dbT "a@x.com" "t1" "pw2" "pw1" rowT (by decide) (by decide)
     (by decide)).2.2.2.1⟩

theorem claim_C2_witness :
    ("a@x.com" ≠ "" ∧ "pw1" ≠ "")
    ∧ verify_user "a@x.com" "pw1" (add_user "a@x.com" "pw1" init_db).2
        = some (init_db.nextUserId, norm "a@x.com") :=
  ⟨⟨by decide, by decide⟩,
   (claim_C2 init_db "a@x.com" "pw1" (by decide) (by decide) (by decide)).2⟩

theorem claim_C3_witness :
    add_user " A@X.COM " "pw2" dbA
      = ((false, "Email already registered."), dbA) :=
  (claim_C3 dbA
    (Reachable.step Reachable.init (Step.register "a@x.com" "pw1" init_db))).2
    " A@X.COM " "pw2" (by decide) (by decide) ⟨rowA, by decide, by decide⟩

theorem claim_C4_witness :
    pyStripStr "  " = ""
    ∧ save_flow 1 "  " "" none none init_db
        = ((false, "No content to save. Paste text or upload a file first."),
           init_db) :=
  ⟨by decide, (claim_C4 1 "x" none none init_db "  " "").2 (by decide)
    (by decide)⟩

theorem claim_C5_witness :
    add_user "" "pw" init_db
      = ((false, "Email and password are required."), init_db)
    ∧ (add_user " " "pw" init_db).1 = (true, "Registration successful.") :=
  ⟨(claim_C5 "" "pw" init_db).1 (Or.inl rfl),
   by rw [(claim_C5 " " "pw" init_db).2 (by decide) (by decide) (by decide)
     (by decide)]⟩

theorem claim_C6_witness :
    verify_user "nobody@x.com" "pw" dbC = none
    ∧ verify_user "c@x.com" "pw" dbC = none :=
  ⟨(claim_C6 dbC "nobody@x.com" "pw").1 (by decide),
   (claim_C6 dbC "c@x.com" "pw").2.2
     { id := 1, email := "c@x.com", password_hash := Blob.corrupt,
       reset_token := none, created_at := 0 }
     "Invalid salt" (by decide) rfl⟩

theorem claim_C7_witness :
    create_reset_token "t1" "zzz@x.com" dbA = (none, dbA)
    ∧ (create_reset_token "t1" "a@x.com" dbA).1 = some "t1"
    ∧ (reset_password "a@x.com" "t1" "pw9"
        (create_reset_token "t2" "a@x.com"
          (create_reset_token "t1" "a@x.com" dbA).2).2).1
        = (false, "Invalid or expired reset token.") :=
  ⟨(claim_C7 dbA "t1" "t2" "zzz@x.com" "pw9").1 (by decide),
   ((claim_C7 dbA "t1" "t2" "a@x.com" "pw9").2 rowA (by decide)).1,
   ((claim_C7 dbA "t1" "t2" "a@x.com" "pw9").2 rowA (by decide)).2.2
     (by decide)⟩

theorem claim_C8_witness :
    (docA ∈ list_documents dbS 1 ↔ (docA ∈ dbS.documents ∧ docA.user_id = 1))
    ∧ (list_documents dbS 1).Pairwise
        (fun a b => b.id < a.id ∧ b.created_at < a.created_at) :=
  ⟨(claim_C8 dbS
      (Reachable.step
        (Reachable.step Reachable.init (Step.save 1 "a" none none init_db))
        (Step.save 1 "b" none none (save_document 1 "a" none none init_db)))
      1).1 docA,
   (claim_C8 dbS
      (Reachable.step
        (Reachable.step Reachable.init (Step.save 1 "a" none none init_db))
        (Step.save 1 "b" none none (save_document 1 "a" none none init_db)))
      1).2⟩

theorem claim_C9_witness :
    delete_document 99 1 dbS = dbS
    ∧ docA ∉ list_documents (delete_document 1 1 dbS) 1 :=
  ⟨(claim_C9 dbS 99 1).2.1 (by decide),
   (claim_C9 dbS 1 1).2.2 docA rfl rfl⟩

theorem claim_C10_witness :
    (reset_password "a@x.com" "t1" "" dbT).1
      = (true, "Password has been reset successfully.")
    ∧ add_user "a@x.com" "" init_db
        = ((false, "Email and password are required."), init_db) :=
  ⟨(claim_C10 dbT "a@x.com" "t1" rowT (by decide) (by decide)).1,
   (claim_C10 dbT "a@x.com" "t1" rowT (by decide) (by decide)).2.2
     "a@x.com" init_db⟩

end Milestone1
